import Mathlib

/-!
Verification of the `ImapSyncManager` core (imapSync.ts) of the
reachinbox-onebox repository: a shallow embedding of the account registry,
the per-account connection lifecycle (ready / error / end events,
exponential-backoff reconnect, watchdog and idle-restart timers, fetch
cycles) and the message normalization performed by `processEmail`,
together with theorems about the spec's claims on that code.

Conventions: JS `undefined`/absent optional values are `Option.none`;
JS string truthiness (`x || d`) is modelled by `orDefault`/`strTruthy`;
`setInterval`/`setTimeout` handles stored on the account record are
modelled as `Bool` fields (set / not set), while timers the code creates
but does not store anywhere are tracked as counters in the simulation
environment `SessEnv`.
-/

namespace ReachInbox

/-- Constant `MAX_RECONNECT_ATTEMPTS = 5` of `ImapSyncManager`. -/
def MAX_RECONNECT_ATTEMPTS : Nat := 5

/-- Constant `INITIAL_RECONNECT_DELAY = 1000` (ms) of `ImapSyncManager`. -/
def INITIAL_RECONNECT_DELAY : Nat := 1000

/-- `keepalive` block of `ImapConfig` (all fields optional in the source). -/
structure Keepalive where
  interval : Option Nat
  idleInterval : Option Nat
  forceNoop : Option Bool
  deriving Repr, DecidableEq

/-- `ImapConfig` (tlsOptions, an opaque `any`, is not modelled). -/
structure ImapConfig where
  user : String
  password : String
  host : String
  port : Option Nat
  tls : Option Bool
  keepalive : Option Keepalive
  deriving Repr, DecidableEq

/-- The keepalive merge performed in `startImap`:
`{ interval: 10000, idleInterval: 300000, forceNoop: true, ...config.keepalive }`. -/
def defaultedKeepalive : Option Keepalive → Keepalive
  | some k => ⟨k.interval <|> some 10000, k.idleInterval <|> some 300000,
               k.forceNoop <|> some true⟩
  | Option.none => ⟨some 10000, some 300000, some true⟩

/-- `ImapAccount`. The `connection` object itself is not modelled (it exists
whenever the account has been started); the two timer-handle fields
`watchdogTimer` and `idleTimer` are modelled as "is the handle set". -/
structure ImapAccount where
  id : String
  config : ImapConfig
  isConnected : Bool
  reconnectAttempts : Nat
  maxReconnectAttempts : Nat
  reconnectDelay : Nat
  watchdogTimer : Bool
  idleTimer : Bool
  deriving Repr, DecidableEq

/-- The account record built at the top of `startImap`. -/
def freshAccount (accountId : String) (config : ImapConfig) : ImapAccount :=
  { id := accountId
    config := { config with keepalive := some (defaultedKeepalive config.keepalive) }
    isConnected := false
    reconnectAttempts := 0
    maxReconnectAttempts := MAX_RECONNECT_ATTEMPTS
    reconnectDelay := INITIAL_RECONNECT_DELAY
    watchdogTimer := false
    idleTimer := false }

/-- The manager's `accounts: Map<string, ImapAccount>`. -/
abbrev Accounts := String → Option ImapAccount

/-- `startImap(accountId, config)`: builds a fresh account record and stores
it in the map with `this.accounts.set(accountId, account)` — unconditionally,
with no check whether a session for `accountId` is already present — then
calls `connectAccount` (which creates the connection and registers event
handlers; it changes no field of the record). -/
def startImap (accounts : Accounts) (accountId : String) (config : ImapConfig) : Accounts :=
  fun k => if k = accountId then some (freshAccount accountId config) else accounts k

/-- `cleanupTimers`: clears `watchdogTimer` (clearInterval) and `idleTimer`
(clearTimeout) and sets both fields to `undefined`. -/
def cleanupTimers (a : ImapAccount) : ImapAccount :=
  { a with watchdogTimer := false, idleTimer := false }

/-- `handleReconnect`: if `reconnectAttempts >= maxReconnectAttempts`, log and
return (no state change, nothing scheduled). Otherwise increment the attempt
counter, compute `delay = reconnectDelay * 2 ^ (reconnectAttempts - 1)` (with
the already-incremented counter), run `cleanupTimers`, and schedule
`connectAccount` to run after `delay` — returned here as `some delay`. -/
def handleReconnect (a : ImapAccount) : ImapAccount × Option Nat :=
  if a.reconnectAttempts ≥ a.maxReconnectAttempts then (a, Option.none)
  else
    let attempts := a.reconnectAttempts + 1
    let delay := a.reconnectDelay * 2 ^ (attempts - 1)
    ({ cleanupTimers a with reconnectAttempts := attempts }, some delay)

/-- The `once('ready')` handler: `isConnected = true`, reset
`reconnectAttempts` to 0 and `reconnectDelay` to the initial delay, start the
watchdog interval (`startWatchdog` stores it in `watchdogTimer`) and begin
idle monitoring (which touches no account field). -/
def onReady (a : ImapAccount) : ImapAccount :=
  { a with isConnected := true
           reconnectAttempts := 0
           reconnectDelay := INITIAL_RECONNECT_DELAY
           watchdogTimer := true }

/-- The `once('error')` handler: `isConnected = false`, then `handleReconnect`. -/
def onError (a : ImapAccount) : ImapAccount × Option Nat :=
  handleReconnect { a with isConnected := false }

/-- The `once('end')` handler: `isConnected = false`, then `cleanupTimers`. -/
def onEnd (a : ImapAccount) : ImapAccount :=
  cleanupTimers { a with isConnected := false }

/-- Iterate `n` consecutive `error` events from state `a`; returns the final
account state and the list of reconnect delays that got scheduled, in order. -/
def runErrors : ImapAccount → Nat → ImapAccount × List Nat
  | a, 0 => (a, [])
  | a, n + 1 =>
    let r1 := onError a
    let r2 := runErrors r1.1 n
    (r2.1, r1.2.toList ++ r2.2)

/-- `getAccountStatus` result shape. -/
structure AccountStatus where
  isConnected : Bool
  reconnectAttempts : Nat
  deriving Repr, DecidableEq

/-- `getAccountStatus(accountId)`: `null` when the id is not in the map,
otherwise the `{isConnected, reconnectAttempts}` snapshot. -/
def getAccountStatus (accounts : Accounts) (accountId : String) : Option AccountStatus :=
  match accounts accountId with
  | Option.none => Option.none
  | some a => some ⟨a.isConnected, a.reconnectAttempts⟩

/-- Delivery of the `ready` event to the session of `accountId`. -/
def readyEvent (accounts : Accounts) (accountId : String) : Accounts :=
  fun k => if k = accountId then (accounts k).map onReady else accounts k

/-- A concrete configuration used for counterexamples and witnesses. -/
def cfg0 : ImapConfig := ⟨"user", "pass", "imap.example.com", Option.none, Option.none, Option.none⟩

/-- Key lemma for the backoff schedule: starting from any account whose
remaining attempt budget covers the `n` errors, the scheduled delays are
`reconnectDelay * 2 ^ (reconnectAttempts + i)` for `i < n`, the counter
advances by one per error, and `reconnectDelay`/`maxReconnectAttempts`
never change on the error path. -/
theorem onError_of_lt (a : ImapAccount)
    (h : a.reconnectAttempts < a.maxReconnectAttempts) :
    onError a = ({ a with isConnected := false
                          watchdogTimer := false
                          idleTimer := false
                          reconnectAttempts := a.reconnectAttempts + 1 },
                 some (a.reconnectDelay * 2 ^ a.reconnectAttempts)) := by
  have hge : ¬ a.reconnectAttempts ≥ a.maxReconnectAttempts := by omega
  simp [onError, handleReconnect, cleanupTimers, hge]

theorem runErrors_spec (n : Nat) : ∀ a : ImapAccount,
    a.reconnectAttempts + n ≤ a.maxReconnectAttempts →
    (runErrors a n).2
      = (List.range n).map (fun i => a.reconnectDelay * 2 ^ (a.reconnectAttempts + i)) ∧
    (runErrors a n).1.reconnectAttempts = a.reconnectAttempts + n ∧
    (runErrors a n).1.reconnectDelay = a.reconnectDelay ∧
    (runErrors a n).1.maxReconnectAttempts = a.maxReconnectAttempts := by
  induction n with
  | zero => intro a _; simp [runErrors]
  | succ n ih =>
    intro a h
    have hstep := onError_of_lt a (by omega)
    obtain ⟨h1, h2, h3, h4⟩ := ih ({ a with isConnected := false
                                            watchdogTimer := false
                                            idleTimer := false
                                            reconnectAttempts := a.reconnectAttempts + 1 })
      (by simp; omega)
    refine ⟨?_, ?_, ?_, ?_⟩
    · simp only [runErrors, hstep, Option.toList, h1]
      rw [List.range_succ_eq_map]
      simp [Function.comp]
      intro i hi
      exact Or.inl (by omega)
    · simp only [runErrors, hstep, h2]
      omega
    · simp only [runErrors, hstep, h3]
    · simp only [runErrors, hstep, h4]

/-- Once `onError` fixes the state and schedules nothing, any further error
events leave the state fixed and schedule nothing. -/
theorem runErrors_fixed (a : ImapAccount) (ha : onError a = (a, Option.none)) :
    ∀ m, runErrors a m = (a, []) := by
  intro m
  induction m with
  | zero => rfl
  | succ m ih => simp [runErrors, ha, ih]

/-- C3: starting from a fresh session, for every sequence of `n < 5`
consecutive connection errors the delay scheduled before reconnect attempt
`k` (the `k`-th entry of the delay list, `i = k - 1`) equals
`INITIAL_RECONNECT_DELAY * 2 ^ (k - 1)`, the attempt counter advances by one
per cycle (reaching `n`), and a `ready` event resets `reconnectAttempts`
to 0. -/
theorem backoff_delays_correct (accountId : String) (config : ImapConfig)
    (n : Nat) (h : n < 5) :
    (runErrors (freshAccount accountId config) n).2
      = (List.range n).map (fun i => INITIAL_RECONNECT_DELAY * 2 ^ i) ∧
    (runErrors (freshAccount accountId config) n).1.reconnectAttempts = n ∧
    (∀ a : ImapAccount, (onReady a).reconnectAttempts = 0) := by
  obtain ⟨h1, h2, h3, h4⟩ := runErrors_spec n (freshAccount accountId config)
    (by simp [freshAccount, MAX_RECONNECT_ATTEMPTS]; omega)
  refine ⟨?_, ?_, fun a => rfl⟩
  · simpa [freshAccount] using h1
  · simpa [freshAccount] using h2

/-- Witness for C3 at `n = 4`: delays 1000, 2000, 4000, 8000 ms. -/
theorem backoff_delays_correct_witness :
    (4 : Nat) < 5 ∧ (runErrors (freshAccount "a" cfg0) 4).2 = [1000, 2000, 4000, 8000] :=
  ⟨by decide, ((backoff_delays_correct "a" cfg0 4 (by decide)).1).trans (by decide)⟩

/-- C4: after the 5th consecutive failed reconnect attempt the session has
`reconnectAttempts = 5` and is disconnected; a further error event changes
nothing and schedules no 6th connect attempt (`onError` returns the same
state and `none` for the scheduled delay), any number of further error
events likewise leave the state fixed with no scheduled attempt, and
`getAccountStatus` surfaces the terminal snapshot
`{isConnected := false, reconnectAttempts := 5}` to the operator. -/
theorem failed_state_terminal (accountId : String) (config : ImapConfig) :
    (runErrors (freshAccount accountId config) 5).1.reconnectAttempts = 5 ∧
    (runErrors (freshAccount accountId config) 5).1.isConnected = false ∧
    onError (runErrors (freshAccount accountId config) 5).1
      = ((runErrors (freshAccount accountId config) 5).1, Option.none) ∧
    (∀ m : Nat, runErrors (runErrors (freshAccount accountId config) 5).1 m
      = ((runErrors (freshAccount accountId config) 5).1, [])) ∧
    getAccountStatus
      (fun k => if k = accountId
                then some (runErrors (freshAccount accountId config) 5).1
                else Option.none) accountId
      = some ⟨false, 5⟩ := by
  refine ⟨rfl, rfl, rfl, runErrors_fixed _ rfl, ?_⟩
  simp only [getAccountStatus, if_pos]
  exact congrArg some rfl

/-- C7: for every registry, account id and credential set, `startImap`
followed by the `ready` event yields a status snapshot of
`{isConnected := true, reconnectAttempts := 0}` and a session whose
`reconnectDelay` is back at `INITIAL_RECONNECT_DELAY`. -/
theorem start_then_ready_listening (accounts : Accounts) (accountId : String)
    (config : ImapConfig) :
    getAccountStatus (readyEvent (startImap accounts accountId config) accountId) accountId
      = some ⟨true, 0⟩ ∧
    (readyEvent (startImap accounts accountId config) accountId accountId).map
      ImapAccount.reconnectDelay = some INITIAL_RECONNECT_DELAY := by
  constructor
  · simp [getAccountStatus, readyEvent, startImap, onReady]
  · simp [readyEvent, startImap, onReady]

/-- An account with an active session, for the C1 counterexample. -/
def busyAccount : ImapAccount :=
  { freshAccount "a" cfg0 with isConnected := true, reconnectAttempts := 2 }

/-- A registry holding the active session `busyAccount` under id "a". -/
def accounts0 : Accounts := fun k => if k = "a" then some busyAccount else Option.none

/-- C1 counterexample: with an active session registered for "a",
`startImap "a"` does not fail — it has no failure path at all — and it does
not leave the existing session's state unchanged: the registry entry is
replaced by a fresh disconnected session. -/
theorem startImap_no_alreadyRunning_cex :
    accounts0 "a" = some busyAccount ∧
    startImap accounts0 "a" cfg0 "a" ≠ some busyAccount := by
  refine ⟨rfl, by decide⟩

/-- C1 amended: `startImap` performs no already-running check; for an
accountId with an active session it unconditionally overwrites the registry
entry with a freshly created session (disconnected, zero reconnect
attempts), the same thing it does when no session exists. -/
theorem startImap_overwrites (accounts : Accounts) (accountId : String)
    (config : ImapConfig) (a : ImapAccount) (_h : accounts accountId = some a) :
    startImap accounts accountId config accountId = some (freshAccount accountId config) ∧
    (freshAccount accountId config).isConnected = false ∧
    (freshAccount accountId config).reconnectAttempts = 0 :=
  ⟨by simp [startImap], rfl, rfl⟩

/-- Witness for C1 amended at the concrete registry `accounts0`. -/
theorem startImap_overwrites_witness :
    accounts0 "a" = some busyAccount ∧
    startImap accounts0 "a" cfg0 "a" = some (freshAccount "a" cfg0) :=
  ⟨rfl, (startImap_overwrites accounts0 "a" cfg0 busyAccount rfl).1⟩

/-- Events delivered to one session by the runtime: the connection's
`ready`/`error`/`end` events, the `mail` push signal, the `end` of a fetch
run, the firing of a `restartIdle` timeout, and `stopImap`. -/
inductive SessEvent where
  | ready
  | transportError
  | connEnd
  | mailSignal
  | fetchEnd
  | resumeFire
  | stop
  deriving Repr, DecidableEq

/-- One session plus the runtime objects the account record does not track:
`pendingConnect` counts `setTimeout(connectAccount, delay)` callbacks from
`handleReconnect` not yet fired; `pendingResume` counts the 1-second
`setTimeout` callbacks created by `restartIdle` — the code stores their
handles nowhere (in particular not in `idleTimer`); `inFlightFetch` counts
fetch runs started by `fetchNewEmails` whose `end` has not yet fired;
`cyclesStarted` counts all fetch runs ever started. -/
structure SessEnv where
  acc : ImapAccount
  pendingConnect : Nat
  pendingResume : Nat
  inFlightFetch : Nat
  cyclesStarted : Nat
  deriving Repr, DecidableEq

/-- The session as created by `startImap`/`connectAccount`: fresh account,
no timers pending, no fetch running. -/
def initSess (accountId : String) (config : ImapConfig) : SessEnv :=
  { acc := freshAccount accountId config
    pendingConnect := 0
    pendingResume := 0
    inFlightFetch := 0
    cyclesStarted := 0 }

/-- One event step of a session, mirroring the handlers of
`setupEventHandlers` and the bodies of `fetchNewEmails`, `restartIdle` and
`stopImap`:
`mail` runs `fetchNewEmails`, which starts a fetch run whenever
`isConnected` holds — it is not guarded by any in-flight flag, so it starts
a run even while another is in flight; the fetch's `end` handler calls
`restartIdle`, which (when still connected) schedules an untracked
1-second resume timeout; a firing resume timeout re-enters IDLE (touching
no account field); `stopImap` runs `cleanupTimers` (clearing only the
`watchdogTimer` and `idleTimer` fields) and asks the connection to end. -/
def step (s : SessEnv) : SessEvent → SessEnv
  | .ready => { s with acc := onReady s.acc }
  | .transportError =>
    let r := onError s.acc
    { s with acc := r.1
             pendingConnect := s.pendingConnect + (r.2.map fun _ => 1).getD 0 }
  | .connEnd => { s with acc := onEnd s.acc }
  | .mailSignal =>
    if s.acc.isConnected then
      { s with inFlightFetch := s.inFlightFetch + 1
               cyclesStarted := s.cyclesStarted + 1 }
    else s
  | .fetchEnd =>
    if s.inFlightFetch = 0 then s
    else
      { s with inFlightFetch := s.inFlightFetch - 1
               pendingResume := s.pendingResume + (if s.acc.isConnected then 1 else 0) }
  | .resumeFire =>
    if s.pendingResume = 0 then s
    else { s with pendingResume := s.pendingResume - 1 }
  | .stop => { s with acc := cleanupTimers s.acc }

/-- Run a trace of events from a session state. -/
def runTrace (s : SessEnv) (events : List SessEvent) : SessEnv :=
  events.foldl step s

/-- C2 counterexample: two `mail` signals arriving while the first fetch
cycle is still in flight yield two concurrent in-flight fetch cycles — the
code never has "at most one fetch cycle in flight per session". -/
theorem fetch_coalescing_cex :
    (runTrace (initSess "a" cfg0)
        [SessEvent.ready, SessEvent.mailSignal, SessEvent.mailSignal]).inFlightFetch = 2 ∧
    ¬ (runTrace (initSess "a" cfg0)
        [SessEvent.ready, SessEvent.mailSignal, SessEvent.mailSignal]).inFlightFetch ≤ 1 := by
  refine ⟨rfl, by decide⟩

/-- C2 amended: there is no coalescing and no in-flight limit — every
`mail` signal received while the session is connected immediately starts one
more fetch cycle, even while another cycle is in flight, and the completion
of a cycle starts no follow-up cycle of its own. -/
theorem mail_signal_starts_cycle (s : SessEnv) (h : s.acc.isConnected = true) :
    (step s SessEvent.mailSignal).inFlightFetch = s.inFlightFetch + 1 ∧
    (step s SessEvent.mailSignal).cyclesStarted = s.cyclesStarted + 1 ∧
    (step s SessEvent.fetchEnd).cyclesStarted = s.cyclesStarted := by
  refine ⟨by simp [step, h], by simp [step, h], ?_⟩
  by_cases h0 : s.inFlightFetch = 0 <;> simp [step, h0]

/-- Witness for C2 amended: a second signal during an in-flight cycle makes
it two cycles. -/
theorem mail_signal_starts_cycle_witness :
    (runTrace (initSess "a" cfg0) [SessEvent.ready, SessEvent.mailSignal]).acc.isConnected = true ∧
    (step (runTrace (initSess "a" cfg0) [SessEvent.ready, SessEvent.mailSignal])
      SessEvent.mailSignal).inFlightFetch
      = (runTrace (initSess "a" cfg0) [SessEvent.ready, SessEvent.mailSignal]).inFlightFetch + 1 :=
  ⟨rfl, (mail_signal_starts_cycle
    (runTrace (initSess "a" cfg0) [SessEvent.ready, SessEvent.mailSignal]) rfl).1⟩

/-- C5: `stopImap` during the 1-second window after a fetch cycle completes.
The watchdog interval and the (never-assigned) `idleTimer` field are
cleared, but the pending resume-listen timeout scheduled by `restartIdle`
is not cancelled — its handle was never stored, so it survives `stop` and
still fires afterwards, contradicting the specified behaviour that no timer
of the session fires after stop. -/
theorem stop_leaves_resume_timer :
    (runTrace (initSess "a" cfg0)
        [SessEvent.ready, SessEvent.mailSignal, SessEvent.fetchEnd]).pendingResume = 1 ∧
    (runTrace (initSess "a" cfg0)
        [SessEvent.ready, SessEvent.mailSignal, SessEvent.fetchEnd,
         SessEvent.stop]).acc.watchdogTimer = false ∧
    (runTrace (initSess "a" cfg0)
        [SessEvent.ready, SessEvent.mailSignal, SessEvent.fetchEnd,
         SessEvent.stop]).acc.idleTimer = false ∧
    (runTrace (initSess "a" cfg0)
        [SessEvent.ready, SessEvent.mailSignal, SessEvent.fetchEnd,
         SessEvent.stop]).pendingResume = 1 := by
  exact ⟨rfl, rfl, rfl, rfl⟩

/-- JS string truthiness of an optional string: `undefined` and `""` are
falsy, every other string is truthy. -/
def strTruthy : Option String → Bool
  | some s => decide (s ≠ "")
  | Option.none => false

/-- `x || d` for an optional string `x` and a string default `d`. -/
def orDefault (o : Option String) (d : String) : String :=
  match o with
  | some s => if s = "" then d else s
  | Option.none => d

/-- One mailparser address object; `text` and `address` may each be absent. -/
structure Address where
  text : Option String
  address : Option String
  deriving Repr, DecidableEq

/-- A to/cc/bcc header as mailparser delivers it: absent, a single address
object, or an array of address objects. -/
inductive AddrHeader where
  | absent
  | one (a : Address)
  | many (as : List Address)
  deriving Repr, DecidableEq

/-- `a?.text || a?.address` from the `toArray` helper in `processEmail`. -/
def pickAddr (a : Address) : Option String :=
  if strTruthy a.text then a.text else a.address

/-- `.filter(Boolean)`: keep only truthy strings. -/
def filterTruthy (l : List (Option String)) : List String :=
  l.filterMap fun o => if strTruthy o then o else Option.none

/-- The `toArray` helper of `processEmail`: `undefined` gives `[]`; an array
maps each element through `a?.text || a?.address` and filters falsy values;
a single object is treated as a one-element array. -/
def toArray : AddrHeader → List String
  | .absent => []
  | .many as => filterTruthy (as.map pickAddr)
  | .one a => filterTruthy [pickAddr a]

/-- One attachment as parsed; every field may be absent. -/
structure Attachment where
  filename : Option String
  contentType : Option String
  size : Option Nat
  deriving Repr, DecidableEq

/-- Attachment metadata of an `EmailDocument`. -/
structure AttachmentDoc where
  filename : String
  contentType : String
  size : Nat
  deriving Repr, DecidableEq

/-- The attachment mapping in `processEmail`:
`{filename: att.filename || 'unknown', contentType: att.contentType ||
'application/octet-stream', size: att.size || 0}`. -/
def normalizeAttachment (att : Attachment) : AttachmentDoc :=
  { filename := orDefault att.filename "unknown"
    contentType := orDefault att.contentType "application/octet-stream"
    size := att.size.getD 0 }

/-- The fields of a mailparser `ParsedMail` that `processEmail` reads.
`fromText` is `parsed.from?.text`; `htmlStr` is `parsed.html` when it is a
string (otherwise absent); dates are modelled as natural timestamps. -/
structure ParsedMail where
  messageId : Option String
  subject : Option String
  fromText : Option String
  toH : AddrHeader
  ccH : AddrHeader
  bccH : AddrHeader
  date : Option Nat
  text : Option String
  htmlStr : Option String
  attachments : Option (List Attachment)
  deriving Repr, DecidableEq

/-- `EmailDocument` of search.ts (`from` and `to` are renamed `fromAddr`
and `toAddrs`: both are reserved words in Lean). -/
structure EmailDocument where
  id : String
  accountId : String
  messageId : String
  subject : String
  fromAddr : String
  toAddrs : List String
  cc : Option (List String)
  bcc : Option (List String)
  date : Nat
  body : String
  htmlBody : Option String
  attachments : Option (List AttachmentDoc)
  flags : List String
  uid : Nat
  folder : String
  indexedAt : Nat
  deriving Repr, DecidableEq

/-- The document construction of `processEmail` after a successful
`simpleParser` run, field by field:
`id` is `` `${account.id}-${parsed.messageId || seqno}` ``; `cc`/`bcc` are
`cc.length ? cc : undefined`; `date` is `parsed.date || new Date()` with
`now` the current time; `uid := seqno`, `folder := 'INBOX'`,
`flags := []`, `indexedAt := now`. -/
def buildEmailDoc (accountId : String) (seqno now : Nat) (p : ParsedMail) :
    EmailDocument :=
  let tos := toArray p.toH
  let ccs := toArray p.ccH
  let bccs := toArray p.bccH
  { id := accountId ++ "-" ++ orDefault p.messageId (toString seqno)
    accountId := accountId
    messageId := orDefault p.messageId ""
    subject := orDefault p.subject "No Subject"
    fromAddr := orDefault p.fromText ""
    toAddrs := tos
    cc := if ccs.length = 0 then Option.none else some ccs
    bcc := if bccs.length = 0 then Option.none else some bccs
    date := p.date.getD now
    body := orDefault p.text ""
    htmlBody := p.htmlStr
    attachments := p.attachments.map (List.map normalizeAttachment)
    flags := []
    uid := seqno
    folder := "INBOX"
    indexedAt := now }

/-- `processEmail` on one raw message: a raw message is modelled as
`some parsed` when `simpleParser` succeeds and `Option.none` when it (or the
rest of the per-message body) throws; the surrounding `try`/`catch` turns a
failure into a logged skip, so the result is the document handed to
`indexEmail` (the document sink), or nothing. -/
def processEmail (accountId : String) (seqno now : Nat)
    (raw : Option ParsedMail) : Option EmailDocument :=
  raw.map (buildEmailDoc accountId seqno now)

/-- One fetch run over a batch: every message gets its own `processEmail`
invocation (its own `try`/`catch`), so the sink receives exactly the
documents of the messages whose processing succeeded, in batch order. -/
def processBatch (accountId : String) (now : Nat)
    (msgs : List (Nat × Option ParsedMail)) : List EmailDocument :=
  msgs.filterMap fun m => processEmail accountId m.1 now m.2

/-- `results.slice(-10)`: the last (up to) 10 elements of the search
result. -/
def sliceLast10 (results : List Nat) : List Nat :=
  results.drop (results.length - 10)

/-- What the search callback of `fetchNewEmails` does with the results. -/
inductive FetchDecision where
  | restartIdleOnly
  | fetchSlice (ids : List Nat)
  deriving Repr, DecidableEq

/-- The search callback of `fetchNewEmails`: with a non-empty result list it
fetches `results.slice(-10)`; with an empty result it only restarts IDLE
(returns to listening) and issues no fetch. -/
def onSearchResults (results : List Nat) : FetchDecision :=
  if results.length > 0 then .fetchSlice (sliceLast10 results)
  else .restartIdleOnly

/-- The optional-list pattern `xs.length ? xs : undefined` used for
`cc`/`bcc`: it is `none` exactly on the empty list and the unchanged list
exactly otherwise. -/
theorem lengthGuard_spec (l : List String) :
    ((if l.length = 0 then Option.none else some l) = Option.none ↔ l = []) ∧
    ((if l.length = 0 then Option.none else some l) = some l ↔ l ≠ []) := by
  rcases l with _ | ⟨x, xs⟩ <;> simp

/-- C8: for every parsed message the document's `to` is always the (possibly
empty) normalized string array, while `cc` and `bcc` are omitted
(`undefined`, not an empty list) exactly when the corresponding header
normalizes to no addresses, and otherwise carry exactly the normalized
array. -/
theorem recipients_normalization (accountId : String) (seqno now : Nat)
    (p : ParsedMail) :
    (buildEmailDoc accountId seqno now p).toAddrs = toArray p.toH ∧
    ((buildEmailDoc accountId seqno now p).cc = Option.none ↔ toArray p.ccH = []) ∧
    ((buildEmailDoc accountId seqno now p).bcc = Option.none ↔ toArray p.bccH = []) ∧
    ((buildEmailDoc accountId seqno now p).cc = some (toArray p.ccH) ↔ toArray p.ccH ≠ []) ∧
    ((buildEmailDoc accountId seqno now p).bcc = some (toArray p.bccH) ↔ toArray p.bccH ≠ []) :=
  ⟨rfl, (lengthGuard_spec (toArray p.ccH)).1, (lengthGuard_spec (toArray p.bccH)).1,
   (lengthGuard_spec (toArray p.ccH)).2, (lengthGuard_spec (toArray p.bccH)).2⟩

/-- C10: normalization is total over missing fields — a parsed message is
never dropped, and each absent (or, for the message id, empty) field gets
its documented default: the sequence number in the composite id,
"No Subject", empty sender and body, and per-attachment defaults
"unknown" / "application/octet-stream" / 0. -/
theorem normalization_totality (accountId : String) (seqno now : Nat)
    (p : ParsedMail) (att : Attachment) :
    processEmail accountId seqno now (some p) = some (buildEmailDoc accountId seqno now p) ∧
    (buildEmailDoc accountId seqno now { p with messageId := Option.none }).id
      = accountId ++ "-" ++ toString seqno ∧
    (buildEmailDoc accountId seqno now { p with messageId := some "" }).id
      = accountId ++ "-" ++ toString seqno ∧
    (buildEmailDoc accountId seqno now { p with subject := Option.none }).subject
      = "No Subject" ∧
    (buildEmailDoc accountId seqno now { p with fromText := Option.none }).fromAddr = "" ∧
    (buildEmailDoc accountId seqno now { p with text := Option.none }).body = "" ∧
    (normalizeAttachment { att with filename := Option.none }).filename = "unknown" ∧
    (normalizeAttachment { att with contentType := Option.none }).contentType
      = "application/octet-stream" ∧
    (normalizeAttachment { att with size := Option.none }).size = 0 :=
  ⟨rfl, rfl, rfl, rfl, rfl, rfl, rfl, rfl, rfl⟩

/-- C9: the empty search result leads to restarting IDLE with no fetch; a
non-empty result fetches exactly `slice(-10)`, which is a suffix of the
result sequence of length `min 10 (length results)` — at most the 10 most
recent identifiers. -/
theorem fetch_last_ten (x : Nat) (xs : List Nat) (results : List Nat) :
    onSearchResults [] = FetchDecision.restartIdleOnly ∧
    onSearchResults (x :: xs) = FetchDecision.fetchSlice (sliceLast10 (x :: xs)) ∧
    (sliceLast10 results).length = min 10 results.length ∧
    sliceLast10 results <:+ results := by
  refine ⟨rfl, by simp [onSearchResults], ?_, List.drop_suffix _ _⟩
  simp only [sliceLast10, List.length_drop]
  omega

/-- C6: a message whose processing fails is skipped without affecting the
rest of the batch — the sink output of a batch with one failing message is
exactly the sink output of the other messages, in order; in particular a
10-message batch whose 5th message fails yields exactly 9 documents; and
completing the fetch run leaves the account state (in particular
`isConnected`) untouched, so the session returns to listening instead of
crashing. -/
theorem failed_message_skipped (accountId : String) (now : Nat)
    (pre post : List (Nat × Option ParsedMail)) (sq : Nat)
    (f : Nat → ParsedMail) (s : SessEnv) :
    processBatch accountId now (pre ++ (sq, Option.none) :: post)
      = processBatch accountId now pre ++ processBatch accountId now post ∧
    processBatch accountId now
        ((List.range 10).map fun i => (i + 1, if i = 4 then Option.none else some (f i)))
      = (((List.range 10).filter fun i => i ≠ 4).map
          fun i => buildEmailDoc accountId (i + 1) now (f i)) ∧
    (processBatch accountId now
        ((List.range 10).map fun i => (i + 1, if i = 4 then Option.none else some (f i)))).length
      = 9 ∧
    (step s SessEvent.fetchEnd).acc = s.acc ∧
    (runTrace (initSess "a" cfg0)
      [SessEvent.ready, SessEvent.mailSignal, SessEvent.fetchEnd]).acc.isConnected = true := by
  refine ⟨?_, ?_, ?_, ?_, rfl⟩
  · simp [processBatch, processEmail]
  · rfl
  · rfl
  · by_cases h0 : s.inFlightFetch = 0 <;> simp [step, h0]

end ReachInbox
